import Mathlib

/-!
# Verification of FlashQuiz+ core logic (`src/app.py`)

A shallow embedding of the pure core of the FlashQuiz+ application:

* `clean_and_split_text` — the sentence filter (app.py lines 153–194);
* `generate_mcq_with_ai` — the fence-stripping / JSON-validation pipeline of
  the MCQ generator (app.py lines 244–272), with the JSON parser abstracted
  as a function parameter;
* `generate_quiz_batch` — the batch builder (app.py lines 287–310), with
  `random.sample` modelled nondeterministically via the `IsSample` predicate;
* `calculate_score` — the score engine (app.py lines 342–378), including an
  exact model of the IEEE-754 binary64 arithmetic used on its percentage line.

Python strings are modelled as `List Char`; the character predicates
(`isalnum`, `isspace`, `isupper`, `strip`) are the ASCII readings of their
Python counterparts, which coincide with Python on all ASCII text.
-/

namespace FlashQuiz

/-! ## Python string primitives on `List Char` -/

/-- Python `str.strip()`: drop leading and trailing whitespace. -/
def pyStrip (l : List Char) : List Char :=
  ((l.dropWhile Char.isWhitespace).reverse.dropWhile Char.isWhitespace).reverse

/-- Python `str.isupper()` (ASCII reading): at least one cased character and
no lower-case character. -/
def pyIsUpper (l : List Char) : Bool :=
  l.any Char.isAlpha && l.all (fun c => !c.isLower)

/-- Number of characters that are neither alphanumeric nor whitespace —
the numerator of `special_char_ratio` in `clean_and_split_text`
(`sum(not c.isalnum() and not c.isspace() for c in line)`). -/
def specialCount (l : List Char) : Nat :=
  (l.filter (fun c => !c.isAlphanum && !c.isWhitespace)).length

/-- `hasLead pat s`: Python `s.startswith(pat)`. -/
def hasLead : List Char → List Char → Bool
  | [], _ => true
  | _ :: _, [] => false
  | p :: ps, c :: cs => p == c && hasLead ps cs

/-- `hasTail pat s`: Python `s.endswith(pat)`. -/
def hasTail (pat s : List Char) : Bool :=
  hasLead pat.reverse s.reverse

/-- `hasSub pat s`: Python substring containment `pat in s`. -/
def hasSub (pat : List Char) : List Char → Bool
  | [] => pat.isEmpty
  | c :: cs => hasLead pat (c :: cs) || hasSub pat cs

/-- Python `text.replace(". ", ".\n")`: left-to-right, non-overlapping. -/
def replaceDotSpace : List Char → List Char
  | [] => []
  | '.' :: ' ' :: rest => '.' :: '\n' :: replaceDotSpace rest
  | c :: rest => c :: replaceDotSpace rest

/-- Python `s.split("\n")`: split at every newline, keeping empty pieces
(`"".split("\n") == [""]`). -/
def splitOnNewline : List Char → List (List Char)
  | [] => [[]]
  | c :: rest =>
    if c = '\n' then [] :: splitOnNewline rest
    else
      match splitOnNewline rest with
      | [] => [[c]]
      | p :: ps => (c :: p) :: ps

/-! ## `clean_and_split_text` (app.py 153–194) -/

/-- The ellipsis marker appended after truncation (`line[:max_length] + "..."`). -/
def ellipsisMark : List Char := "...".data

/-- One iteration of the `for line in lines` loop body of
`clean_and_split_text`: strip, then the three `continue` guards in source
order (minimum length; upper-case header; special-character ratio), then
truncation.  `none` models `continue`, `some` the appended sentence.

The ratio guard `special_char_ratio > 0.3` is modelled exactly over the
rationals as `10 * specialCount line > 3 * len(line)`; Python evaluates it
in binary64, which agrees with the exact comparison at every feasible line
length. -/
def processLine (minLength maxLength : Nat) (raw : List Char) : Option (List Char) :=
  let line := pyStrip raw
  if line.length < minLength then none
  else if pyIsUpper line && line.length < 50 then none
  else if 3 * line.length < 10 * specialCount line then none
  else if maxLength < line.length then some (line.take maxLength ++ ellipsisMark)
  else some line

/-- `clean_and_split_text(text, min_length=30, max_length=300)`
(app.py 153–194): split on `". "`-induced breaks and newlines, then filter
and truncate each candidate line. -/
def clean_and_split_text (text : List Char) (minLength : Nat := 30)
    (maxLength : Nat := 300) : List (List Char) :=
  (splitOnNewline (replaceDotSpace text)).filterMap (processLine minLength maxLength)

/-- The stripped candidate lines on which the source actually computes
`special_char_ratio`: those that survive the minimum-length guard and the
upper-case-header guard (the two `continue`s that precede the ratio line). -/
def ratioCheckedLines (text : List Char) (minLength : Nat) : List (List Char) :=
  (((splitOnNewline (replaceDotSpace text)).map pyStrip).filter
      (fun l => !(l.length < minLength))).filter
    (fun l => !(pyIsUpper l && l.length < 50))

/-! ## Exact model of the binary64 arithmetic on app.py line 370

`percentage = int((correct_count / total_questions) * 100)` runs in IEEE-754
binary64: one correctly-rounded division, one correctly-rounded
multiplication, and truncation toward zero.  The model below computes those
correctly-rounded operations exactly over rational numbers represented as
`Nat` fractions; it is faithful for all values in the binary64 normal range,
which covers every `correct / total` with `total` below `2^1022`. -/

/-- Fuel-driven ⌊log₂ n⌋ (correct whenever `fuel ≥ n`, e.g. `fuel = n`). -/
def log2f : Nat → Nat → Nat
  | 0, _ => 0
  | fuel + 1, n => if n < 2 then 0 else log2f fuel (n / 2) + 1

/-- ⌊log₂ (a/b)⌋ for `a, b ≥ 1`. -/
def qlog2 (a b : Nat) : Int :=
  let k := log2f b b + 1
  (log2f (a * 2 ^ k) (a * 2 ^ k / b) : Int) - (k : Int)

/-- Round the rational `n/d` to the nearest integer, ties to even. -/
def rhe (n d : Nat) : Nat :=
  let q := n / d
  let r := n % d
  if 2 * r < d then q
  else if d < 2 * r then q + 1
  else if q % 2 = 0 then q else q + 1

/-- Round the nonnegative rational `a/b` (`b ≥ 1`) to the nearest binary64
value (round half to even), returned as a dyadic `mantissa * 2 ^ exponent`. -/
def roundDouble (a b : Nat) : Nat × Int :=
  if a = 0 then (0, 0)
  else
    let e := qlog2 a b
    let s := 52 - e
    if 0 ≤ s then (rhe (a * 2 ^ s.toNat) b, e - 52)
    else (rhe a (b * 2 ^ (-s).toNat), e - 52)

/-- A dyadic `m * 2 ^ e` as a `Nat` fraction. -/
def dyadicToFrac (x : Nat × Int) : Nat × Nat :=
  if 0 ≤ x.2 then (x.1 * 2 ^ x.2.toNat, 1) else (x.1, 2 ^ (-x.2).toNat)

/-- Python `int(x)` on a nonnegative dyadic: truncation toward zero. -/
def truncDyadic (x : Nat × Int) : Nat :=
  if 0 ≤ x.2 then x.1 * 2 ^ x.2.toNat else x.1 / 2 ^ (-x.2).toNat

/-- `int((c / t) * 100)` in binary64, exactly as Python evaluates it on
app.py line 370: correctly-rounded division `c / t`, correctly-rounded
multiplication by the exact constant `100.0`, truncation toward zero. -/
def floatPercent (c t : Nat) : Nat :=
  let q := roundDouble c t
  let f := dyadicToFrac q
  truncDyadic (roundDouble (100 * f.1) f.2)

/-! ## `calculate_score` (app.py 342–378) -/

/-- The MCQ record as consumed by the score engine: the dictionary produced
by `generate_mcq_with_ai`, with its fields read as strings
(`question`, `correct_answer`) and `explanation` possibly absent
(`mcq.get('explanation', 'N/A')`). -/
structure MCQ where
  question : List Char
  options : List (List Char)
  correct_answer : List Char
  explanation : Option (List Char)
deriving Repr, DecidableEq

/-- One element of the `wrong_questions` review list. -/
structure WrongEntry where
  question_num : Nat
  question : List Char
  user_answer : List Char
  correct_answer : List Char
  explanation : List Char
deriving Repr, DecidableEq

/-- The dictionary returned by `calculate_score`. -/
structure ScoreReport where
  total : Nat
  correct : Nat
  wrong : Nat
  percentage : Nat
  wrong_questions : List WrongEntry
deriving Repr, DecidableEq

/-- Python `user_answers.get(i)`: the `user_answers` dict is modelled as a
function to `Option`, `none` meaning the key is absent. -/
abbrev Answers : Type := Nat → Option (List Char)

/-- `user_answer == correct_answer` where `user_answer` is `None` or a
string and `correct_answer` a string: `None == s` is `False` in Python. -/
def answerMatches (ua : Option (List Char)) (ca : List Char) : Bool :=
  match ua with
  | none => false
  | some s => s == ca

/-- `user_answer if user_answer else "Not answered"`: Python truthiness, so
both `None` and the empty string display as `"Not answered"`. -/
def displayAnswer (ua : Option (List Char)) : List Char :=
  match ua with
  | none => "Not answered".data
  | some s => if s.isEmpty then "Not answered".data else s

/-- The `for i, mcq in enumerate(mcqs)` loop of `calculate_score`, started
at index `i`: returns `(correct_count, wrong_questions)`. -/
def scoreLoop (answers : Answers) : Nat → List MCQ → Nat × List WrongEntry
  | _, [] => (0, [])
  | i, mcq :: rest =>
    let ua := answers i
    let tail := scoreLoop answers (i + 1) rest
    if answerMatches ua mcq.correct_answer then (tail.1 + 1, tail.2)
    else
      (tail.1,
        { question_num := i + 1
          question := mcq.question
          user_answer := displayAnswer ua
          correct_answer := mcq.correct_answer
          explanation := mcq.explanation.getD "N/A".data } :: tail.2)

/-- `calculate_score(mcqs, user_answers)` (app.py 342–378). -/
def calculate_score (mcqs : List MCQ) (user_answers : Answers) : ScoreReport :=
  let res := scoreLoop user_answers 0 mcqs
  let total := mcqs.length
  { total := total
    correct := res.1
    wrong := total - res.1
    percentage := if 0 < total then floatPercent res.1 total else 0
    wrong_questions := res.2 }

/-! ## JSON values and `generate_mcq_with_ai` (app.py 244–272)

`json.loads` is an external library call; it is abstracted as a function
parameter `parse : List Char → Option Json` (`none` = `JSONDecodeError`).
Everything after the parse — the fence stripping before it and the
validation after it — is translated from the source.  Python runtime errors
raised inside the `try` block (`TypeError`, `KeyError`) are caught by the
enclosing `except` and turned into `None`, so the evaluator below returns
`Option` results with `none` for both "raised" and "validation failed". -/

/-- A decoded JSON value. -/
inductive Json where
  | null : Json
  | bool (b : Bool) : Json
  | num (n : Int) : Json
  | str (s : List Char) : Json
  | arr (items : List Json) : Json
  | obj (fields : List (List Char × Json)) : Json
deriving Repr

instance : Inhabited Json := ⟨Json.null⟩

mutual

/-- Python `==` on decoded JSON values (structural equality; the Python
quirk `True == 1` is not modelled — no claim depends on it). -/
def jeq : Json → Json → Bool
  | .null, .null => true
  | .bool a, .bool b => a == b
  | .num a, .num b => a == b
  | .str a, .str b => a == b
  | .arr a, .arr b => jeqList a b
  | .obj a, .obj b => jeqFields a b
  | _, _ => false

/-- Python `==` on lists of decoded JSON values. -/
def jeqList : List Json → List Json → Bool
  | [], [] => true
  | x :: xs, y :: ys => jeq x y && jeqList xs ys
  | _, _ => false

/-- Python `==` on the field lists of decoded JSON objects. -/
def jeqFields : List (List Char × Json) → List (List Char × Json) → Bool
  | [], [] => true
  | (k, v) :: xs, (k2, v2) :: ys => k == k2 && jeq v v2 && jeqFields xs ys
  | _, _ => false

end

/-- Python `len(j)`: defined for strings, lists and dicts; `TypeError`
(hence `none`) otherwise. -/
def pyLen : Json → Option Nat
  | .str s => some s.length
  | .arr items => some items.length
  | .obj fields => some fields.length
  | _ => none

/-- Python `x in j`: element membership for lists, substring test for
strings, key membership for dicts; `TypeError` (hence `none`) when `j` is
not a container, or when `j` is a dict and `x` unhashable. -/
def pyIn (x : Json) : Json → Option Bool
  | .arr items => some (items.any (fun y => jeq x y))
  | .str s =>
    match x with
    | .str t => some (hasSub t s)
    | _ => none
  | .obj fields =>
    match x with
    | .str t => some (fields.any (fun kv => kv.1 == t))
    | .arr _ => none
    | .obj _ => none
    | _ => some false
  | _ => none

/-- Python `j[key]` for a string key: dict lookup (`none` covers both the
`KeyError` on a missing key and the `TypeError` on a non-dict). -/
def pyGetItem (j : Json) (key : List Char) : Option Json :=
  match j with
  | .obj fields =>
    match fields.find? (fun kv => kv.1 == key) with
    | some kv => some kv.2
    | none => none
  | _ => none

/-- Strip the markdown code fences around the model response, exactly as
app.py 245–255: strip, drop a leading `"```json"`, drop a leading
`"```"`, drop a trailing `"```"`, strip again (the final strip is the
`content.strip()` inside `json.loads(content.strip())`). -/
def stripFences (content : List Char) : List Char :=
  let c0 := pyStrip content
  let c1 := if hasLead ("```json".data) c0 then c0.drop 7 else c0
  let c2 := if hasLead ("```".data) c1 then c1.drop 3 else c1
  let c3 := if hasTail ("```".data) c2 then c2.take (c2.length - 3) else c2
  pyStrip c3

/-- The validation that follows the parse (app.py 257–265):
`all(key in mcq for key in required_keys)`, then `len(mcq["options"]) == 4`,
then `mcq["correct_answer"] in mcq["options"]`; `none` for any raised
`TypeError`/`KeyError` (caught by the enclosing `except`) and for any
failed check. -/
def generateCore (parsed : Option Json) : Option Json :=
  match parsed with
  | none => none
  | some mcq =>
    match pyIn (.str "question".data) mcq, pyIn (.str "options".data) mcq,
        pyIn (.str "correct_answer".data) mcq with
    | some true, some true, some true =>
      match pyGetItem mcq ("options".data) with
      | none => none
      | some opts =>
        match pyLen opts with
        | none => none
        | some n =>
          if n = 4 then
            match pyGetItem mcq ("correct_answer".data) with
            | none => none
            | some ca =>
              match pyIn ca opts with
              | some true => some mcq
              | _ => none
          else none
    | _, _, _ => none

/-- `generate_mcq_with_ai` from the response text on (app.py 244–272): the
model response `content`, fence-stripped, handed to the JSON parser, then
validated.  Every failure path of the source (`JSONDecodeError`, failed
validation, raised `TypeError`/`KeyError`) returns `none`. -/
def generate_mcq_with_ai (parse : List Char → Option Json) (content : List Char) :
    Option Json :=
  generateCore (parse (stripFences content))

/-- The implemented validation as a predicate: a parsed value is accepted
exactly when the validation pipeline returns it rather than `None`. -/
def codeValid (mcq : Json) : Bool :=
  (generateCore (some mcq)).isSome

/-- `j` is a JSON object whose `"options"` entry is a JSON array — the
shape the prompt asks the model for. -/
def optionsIsArray (j : Json) : Bool :=
  match j, pyGetItem j ("options".data) with
  | .obj _, some (.arr _) => true
  | _, _ => false

/-- Modelled from the spec's validation contract (§4.3 step 5): all three
required keys present, `options` a JSON array of exactly 4 entries, and
`correct_answer` exactly equal (case-sensitive) to one of the 4 options. -/
def specValidMCQ (mcq : Json) : Bool :=
  match mcq with
  | .obj fields =>
    (fields.any (fun kv => kv.1 == "question".data)) &&
    (match fields.find? (fun kv => kv.1 == "options".data),
        fields.find? (fun kv => kv.1 == "correct_answer".data) with
     | some opts, some ca =>
       match opts.2 with
       | .arr items => items.length == 4 && items.any (fun y => jeq ca.2 y)
       | _ => false
     | _, _ => false)
  | _ => false

/-! ## `generate_quiz_batch` (app.py 287–310)

`random.sample(sentences, min(num_questions, len(sentences)))` draws
`min(num_questions, len(sentences))` elements at pairwise-distinct
*positions* of `sentences` (Python docs: "If the population contains
repeats, then each occurrence is a possible selection in the sample").
The draw is nondeterministic, so the model quantifies over every list
`selected` that `random.sample` could return, characterised by
`IsSample`. -/

/-- `selected` is a possible result of
`random.sample(sentences, min(k, len(sentences)))`: the values of
`sentences` at some list of pairwise-distinct in-range positions of length
`min k sentences.length`. -/
def IsSample (sentences : List (List Char)) (k : Nat) (selected : List (List Char)) :
    Prop :=
  ∃ idxs : List Nat, idxs.Nodup ∧ (∀ i ∈ idxs, i < sentences.length) ∧
    idxs.length = min k sentences.length ∧
    selected = idxs.map (fun i => sentences.getD i [])

/-- The `for sentence in selected_sentences` loop of `generate_quiz_batch`:
run the generator on each selected sentence and keep the non-`None`
results in order (`if mcq: mcqs.append(mcq)`).  The generator argument
stands for `generate_mcq_with_ai client` applied to one fixed parse
behaviour; the progress-bar calls are UI side effects with no influence on
the returned list. -/
def generate_quiz_batch (gen : List Char → Option Json)
    (selected : List (List Char)) : List Json :=
  selected.filterMap gen

/-! ## Shared lemmas -/

/-- The loop of `calculate_score` never counts more correct answers than
there are questions. -/
theorem scoreLoop_fst_le (answers : Answers) :
    ∀ (i : Nat) (l : List MCQ), (scoreLoop answers i l).1 ≤ l.length := by
  intro i l
  induction l generalizing i with
  | nil => simp [scoreLoop]
  | cons mcq rest ih =>
    have hi := ih (i + 1)
    by_cases h : answerMatches (answers i) mcq.correct_answer <;>
      simp [scoreLoop, h] <;> omega

/-! ## C1 -/

/-- C1: for every list of MCQs and every answer mapping, `calculate_score`
returns a report whose `total` equals the number of MCQs, whose
`correct + wrong` equals `total`, and whose `percentage` is `0` when
`total` is `0`. -/
theorem C1_score_report_totals (mcqs : List MCQ) (answers : Answers) :
    (calculate_score mcqs answers).total = mcqs.length ∧
    (calculate_score mcqs answers).correct + (calculate_score mcqs answers).wrong =
      (calculate_score mcqs answers).total ∧
    ((calculate_score mcqs answers).total = 0 →
      (calculate_score mcqs answers).percentage = 0) := by
  refine ⟨rfl, ?_, ?_⟩
  · have h := scoreLoop_fst_le answers 0 mcqs
    simp only [calculate_score]
    omega
  · intro h
    simp only [calculate_score] at h ⊢
    simp [h]

/-- Witness for C1: the empty quiz has `total = 0` and `percentage = 0`. -/
theorem C1_score_report_totals_witness :
    (calculate_score [] (fun _ => none)).percentage = 0 :=
  (C1_score_report_totals [] (fun _ => none)).2.2 rfl

/-! ## C2 -/

/-- A 50-question quiz, all with correct answer `"A"`. -/
def fiftyQuiz : List MCQ :=
  List.replicate 50
    { question := "q".data
      options := ["A".data, "B".data, "C".data, "D".data]
      correct_answer := "A".data
      explanation := none }

/-- Answers that get exactly the first 29 of the 50 questions right. -/
def twentyNineRight : Answers :=
  fun i => if i < 29 then some ("A".data) else some ("B".data)

/-- C2 (code bug): on a 50-question quiz with exactly 29 correct answers the
source's `int((correct_count / total_questions) * 100)`, evaluated in
binary64 as the code does, yields 57, while the exact integer floor
division `29 * 100 / 50` required by the claim yields 58. -/
theorem C2_percentage_is_not_floor_division :
    (calculate_score fiftyQuiz twentyNineRight).correct = 29 ∧
    (calculate_score fiftyQuiz twentyNineRight).total = 50 ∧
    (calculate_score fiftyQuiz twentyNineRight).percentage = 57 ∧
    29 * 100 / 50 = 58 := by
  refine ⟨?_, rfl, ?_, rfl⟩ <;> decide

/-! ## C10 -/

/-- An unanswered or blank answer at position `j` of the loop produces a
review entry whose displayed answer is `"Not answered"`. -/
theorem scoreLoop_blank_entry (answers : Answers) :
    ∀ (l : List MCQ) (i0 j : Nat) (hj : j < l.length),
      answers (i0 + j) = some [] →
      (l.get ⟨j, hj⟩).correct_answer ≠ [] →
      ∃ e ∈ (scoreLoop answers i0 l).2,
        e.question_num = i0 + j + 1 ∧ e.user_answer = "Not answered".data := by
  intro l
  induction l with
  | nil => intro i0 j hj; exact absurd hj (Nat.not_lt_zero j)
  | cons mcq rest ih =>
    intro i0 j hj hans hca
    cases j with
    | zero =>
      have hans0 : answers i0 = some [] := by simpa using hans
      have hmatch : answerMatches (answers i0) mcq.correct_answer = false := by
        rw [hans0]
        simp only [answerMatches, List.get] at hca ⊢
        cases hc : ([] == mcq.correct_answer)
        · rfl
        · exact absurd (eq_of_beq hc).symm hca
      refine ⟨{ question_num := i0 + 1, question := mcq.question,
                user_answer := displayAnswer (answers i0),
                correct_answer := mcq.correct_answer,
                explanation := mcq.explanation.getD ("N/A".data) }, ?_, rfl, ?_⟩
      · simp [scoreLoop, hmatch]
      · rw [hans0]; rfl
    | succ j' =>
      have hans' : answers ((i0 + 1) + j') = some [] := by
        rw [show (i0 + 1) + j' = i0 + (j' + 1) by omega]; exact hans
      have hca' : (rest.get ⟨j', Nat.lt_of_succ_lt_succ hj⟩).correct_answer ≠ [] := hca
      obtain ⟨e, he, h1, h2⟩ :=
        ih (i0 + 1) j' (Nat.lt_of_succ_lt_succ hj) hans' hca'
      refine ⟨e, ?_, by omega, h2⟩
      by_cases h : answerMatches (answers i0) mcq.correct_answer <;>
        simp [scoreLoop, h, he]

/-- C10: when a question's entry in `user_answers` is the empty string while
its `correct_answer` is non-empty, `calculate_score` counts that question
as wrong (it appears in the review list) and records its displayed answer
as `"Not answered"` rather than the submitted empty string. -/
theorem C10_blank_answer_not_answered (mcqs : List MCQ) (answers : Answers)
    (j : Nat) (hj : j < mcqs.length) (hblank : answers j = some [])
    (hca : (mcqs.get ⟨j, hj⟩).correct_answer ≠ []) :
    ∃ e ∈ (calculate_score mcqs answers).wrong_questions,
      e.question_num = j + 1 ∧ e.user_answer = "Not answered".data := by
  have h := scoreLoop_blank_entry answers mcqs 0 j hj (by simpa using hblank) hca
  simpa [calculate_score] using h

/-- A one-question demo quiz used to witness C10. -/
def demoQuiz : List MCQ :=
  [{ question := "Q".data
     options := ["A".data, "B".data, "C".data, "D".data]
     correct_answer := "A".data
     explanation := none }]

/-- Witness for C10: a blank (empty-string) answer on the one-question demo
quiz lands in the review list as `"Not answered"`. -/
theorem C10_blank_answer_not_answered_witness :
    ∃ e ∈ (calculate_score demoQuiz (fun _ => some [])).wrong_questions,
      e.question_num = 0 + 1 ∧ e.user_answer = "Not answered".data :=
  C10_blank_answer_not_answered demoQuiz (fun _ => some []) 0 (by decide) rfl
    (by decide)

/-! ## C3 -/

/-- A single 301-character line of `'a'`s. -/
def longLine : List Char := List.replicate 301 'a'

set_option maxRecDepth 4000 in
/-- Counterexample to C3: on a 301-character input line, the emitted string
is the 300-character truncation *plus* the 3-character ellipsis marker, so
its length is 303, outside the claimed interval `[30, 300]`. -/
theorem C3_counterexample :
    (List.replicate 300 'a' ++ "...".data) ∈ clean_and_split_text longLine 30 300 ∧
    ¬ ((List.replicate 300 'a' ++ "...".data).length ≤ 300) := by
  constructor <;> decide

/-- C3 (amended): with the default bounds, every string emitted by
`clean_and_split_text` has length at least 30 and at most 303: untruncated
outputs lie in `[30, 300]` and truncated outputs have length exactly
`300 + 3` (the truncation *appends* the 3-character ellipsis on top of the
`max_length`-character cut). -/
theorem C3_emitted_length_bounds (text s : List Char)
    (hs : s ∈ clean_and_split_text text 30 300) :
    30 ≤ s.length ∧ (s.length ≤ 300 ∨ s.length = 303) := by
  obtain ⟨raw, _, hp⟩ := List.mem_filterMap.mp hs
  unfold processLine at hp
  set line := pyStrip raw with hline
  by_cases h1 : line.length < 30
  · simp [h1] at hp
  · by_cases h2 : pyIsUpper line && line.length < 50
    · simp [h1, h2] at hp
    · by_cases h3 : 3 * line.length < 10 * specialCount line
      · simp [h1, h2, h3] at hp
      · by_cases h4 : 300 < line.length
        · rw [if_neg h1, if_neg h2, if_neg h3, if_pos h4, Option.some_inj] at hp
          have hlen : s.length = 303 := by
            rw [← hp, List.length_append, List.length_take]
            have h5 : ellipsisMark.length = 3 := rfl
            omega
          omega
        · rw [if_neg h1, if_neg h2, if_neg h3, if_neg h4, Option.some_inj] at hp
          rw [← hp]
          omega

/-- A 40-character line used to witness C3 and C4. -/
def fortyLine : List Char := List.replicate 40 'b'

/-- Witness for C3: a 40-character line is emitted unchanged and satisfies
the amended bounds. -/
theorem C3_emitted_length_bounds_witness :
    30 ≤ fortyLine.length ∧ (fortyLine.length ≤ 300 ∨ fortyLine.length = 303) :=
  C3_emitted_length_bounds fortyLine fortyLine (by decide)

/-! ## C4 -/

/-- A 301-character line: 90 `'#'`s followed by 211 `'a'`s.  Its
special-character ratio is 90/301 ≤ 0.3, so it passes the ratio guard, but
it is then truncated. -/
def spikyLine : List Char := List.replicate 90 '#' ++ List.replicate 211 'a'

set_option maxRecDepth 4000 in
/-- Counterexample to C4: the truncated output built from `spikyLine` keeps
all 90 special characters and gains the 3-character ellipsis, so its
special-character ratio is 93/303 > 0.3. -/
theorem C4_counterexample :
    (List.replicate 90 '#' ++ List.replicate 210 'a' ++ "...".data) ∈
      clean_and_split_text spikyLine 30 300 ∧
    3 * (List.replicate 90 '#' ++ List.replicate 210 'a' ++ "...".data).length <
      10 * specialCount (List.replicate 90 '#' ++ List.replicate 210 'a' ++ "...".data) := by
  constructor <;> decide

/-- C4 (amended): with the default bounds, every *untruncated* string
emitted by `clean_and_split_text` (length at most 300) has
special-character ratio at most 0.3; the ratio guard is applied before
truncation, so a truncated output can exceed it. -/
theorem C4_emitted_ratio_bound (text s : List Char)
    (hs : s ∈ clean_and_split_text text 30 300) (hlen : s.length ≤ 300) :
    10 * specialCount s ≤ 3 * s.length := by
  obtain ⟨raw, _, hp⟩ := List.mem_filterMap.mp hs
  unfold processLine at hp
  set line := pyStrip raw with hline
  by_cases h1 : line.length < 30
  · simp [h1] at hp
  · by_cases h2 : pyIsUpper line && line.length < 50
    · simp [h1, h2] at hp
    · by_cases h3 : 3 * line.length < 10 * specialCount line
      · simp [h1, h2, h3] at hp
      · by_cases h4 : 300 < line.length
        · rw [if_neg h1, if_neg h2, if_neg h3, if_pos h4, Option.some_inj] at hp
          have h5 : s.length = 303 := by
            rw [← hp, List.length_append, List.length_take]
            have h6 : ellipsisMark.length = 3 := rfl
            omega
          omega
        · rw [if_neg h1, if_neg h2, if_neg h3, if_neg h4, Option.some_inj] at hp
          rw [← hp]
          omega

/-- Witness for C4: the 40-character line is emitted untruncated and its
special-character count is 0. -/
theorem C4_emitted_ratio_bound_witness :
    10 * specialCount fortyLine ≤ 3 * fortyLine.length :=
  C4_emitted_ratio_bound fortyLine fortyLine (by decide) (by decide)

/-! ## C8 -/

/-- Per-line staging of `clean_and_split_text`: the filter/truncate loop is
the three guards in source order followed by the truncation step. -/
theorem filterMap_processLine_staged (minL maxL : Nat) :
    ∀ lines : List (List Char),
      lines.filterMap (processLine minL maxL) =
        ((((lines.map pyStrip).filter (fun l => !(l.length < minL))).filter
              (fun l => !(pyIsUpper l && l.length < 50))).filter
            (fun l => !(3 * l.length < 10 * specialCount l))).map
          (fun l => if maxL < l.length then l.take maxL ++ ellipsisMark else l) := by
  intro lines
  induction lines with
  | nil => rfl
  | cons raw rest ih =>
    simp only [List.filterMap_cons, List.map_cons, List.filter_cons]
    by_cases h1 : (pyStrip raw).length < minL
    · simp [processLine, h1, ih, -List.filter_filter, -Bool.not_and]
    · by_cases h2 : pyIsUpper (pyStrip raw) && (pyStrip raw).length < 50
      · simp [processLine, h1, h2, ih, -List.filter_filter, -Bool.not_and]
      · by_cases h3 : 3 * (pyStrip raw).length < 10 * specialCount (pyStrip raw)
        · simp [processLine, h1, h2, h3, ih, -List.filter_filter, -Bool.not_and]
        · by_cases h4 : maxL < (pyStrip raw).length
          · simp [processLine, h1, h2, h3, h4, ih, -List.filter_filter, -Bool.not_and]
          · simp [processLine, h1, h2, h3, h4, ih, -List.filter_filter, -Bool.not_and]

/-- C8: for every input text and `min_length ≥ 1`, every line on which the
source computes `special_char_ratio` (those surviving the length guard and
the header guard) has positive length, so the division `.../ len(line)` has
a nonzero denominator; and `clean_and_split_text` is exactly the ratio
filter followed by truncation applied to those lines, confirming that the
ratio is computed only after the length guard has discarded all lines
shorter than `min_length`. -/
theorem C8_ratio_denominator_positive (text : List Char) (minL maxL : Nat)
    (hmin : 1 ≤ minL) :
    (∀ l ∈ ratioCheckedLines text minL, 0 < l.length) ∧
    clean_and_split_text text minL maxL =
      ((ratioCheckedLines text minL).filter
          (fun l => !(3 * l.length < 10 * specialCount l))).map
        (fun l => if maxL < l.length then l.take maxL ++ ellipsisMark else l) := by
  constructor
  · intro l hl
    obtain ⟨hl1, -⟩ := List.mem_filter.mp hl
    obtain ⟨-, hc⟩ := List.mem_filter.mp hl1
    simp only [Bool.not_eq_true', decide_eq_false_iff_not, Nat.not_lt] at hc
    omega
  · exact filterMap_processLine_staged minL maxL _

/-- Witness for C8: a concrete line that reaches the ratio computation has
positive length. -/
theorem C8_ratio_denominator_positive_witness : 0 < fortyLine.length :=
  (C8_ratio_denominator_positive fortyLine 30 300 (by decide)).1 fortyLine
    (by decide)

/-! ## C5 -/

/-- The validation pipeline can only return the value it was given. -/
theorem generateCore_some {j r : Json} (h : generateCore (some j) = some r) :
    r = j := by
  unfold generateCore at h
  cases hA : pyIn (Json.str "question".data) j with
  | none => simp [hA] at h
  | some bA =>
    cases bA with
    | false => simp [hA] at h
    | true =>
      cases hB : pyIn (Json.str "options".data) j with
      | none => simp [hA, hB] at h
      | some bB =>
        cases bB with
        | false => simp [hA, hB] at h
        | true =>
          cases hC : pyIn (Json.str "correct_answer".data) j with
          | none => simp [hA, hB, hC] at h
          | some bC =>
            cases bC with
            | false => simp [hA, hB, hC] at h
            | true =>
              simp only [hA, hB, hC] at h
              cases hO : pyGetItem j ("options".data) with
              | none => simp only [hO] at h; exact Option.noConfusion h
              | some opts =>
                simp only [hO] at h
                cases hL : pyLen opts with
                | none => simp only [hL] at h; exact Option.noConfusion h
                | some n =>
                  simp only [hL] at h
                  by_cases h4 : n = 4
                  · rw [if_pos h4] at h
                    cases hCA : pyGetItem j ("correct_answer".data) with
                    | none => simp only [hCA] at h; exact Option.noConfusion h
                    | some ca =>
                      simp only [hCA] at h
                      cases hI : pyIn ca opts with
                      | none => simp only [hI] at h; exact Option.noConfusion h
                      | some bI =>
                        cases bI with
                        | false => simp only [hI] at h; exact Option.noConfusion h
                        | true =>
                          simp only [hI] at h
                          exact (Option.some_inj.mp h).symm
                  · rw [if_neg h4] at h; exact Option.noConfusion h

/-- A key is `in` a dict iff `find?` locates it. -/
theorem anyKey_eq_findIsSome (fields : List (List Char × Json)) (key : List Char) :
    fields.any (fun kv => kv.1 == key) =
      (fields.find? (fun kv => kv.1 == key)).isSome := by
  induction fields with
  | nil => rfl
  | cons kv rest ih =>
    by_cases h : kv.1 == key <;> simp [List.find?_cons, h, ih]

/-- The JSON text `{"question": "q", "options": "abcd", "correct_answer":
"bc"}` — syntactically valid JSON whose `options` value is a *string* of
length 4 that contains `"bc"` as a substring. -/
def badResponseText : List Char :=
  "\x7b\"question\": \"q\", \"options\": \"abcd\", \"correct_answer\": \"bc\"\x7d".data

/-- The dictionary `json.loads` produces from `badResponseText`. -/
def jBadOptions : Json :=
  .obj [("question".data, .str "q".data), ("options".data, .str "abcd".data),
        ("correct_answer".data, .str "bc".data)]

/-- `json.loads` restricted to the one response used in the C5
counterexample: on `badResponseText` it returns `jBadOptions`, exactly as
`json.loads` does on that text. -/
def parseBad : List Char → Option Json :=
  fun s => if s = badResponseText then some jBadOptions else none

/-- Counterexample to C5: on a response whose `options` value is the
4-character JSON *string* `"abcd"` with `correct_answer` `"bc"`, the code
returns the MCQ (Python's `len` and `in` accept the string), although the
claimed condition — `options` has exactly 4 entries and `correct_answer`
equals one of them — does not hold. -/
theorem C5_counterexample :
    generate_mcq_with_ai parseBad badResponseText = some jBadOptions ∧
    specValidMCQ jBadOptions = false := by
  constructor
  · rfl
  · rfl

/-- C5 (amended): `generate_mcq_with_ai` never raises and returns an MCQ
exactly when the fence-stripped response parses and the *implemented*
validation accepts it (all three keys `in` the parse result, Python
`len(options) == 4`, `correct_answer in options`); when the parsed
`options` is a JSON array this acceptance coincides with the claimed
condition, but a 4-character string (or 4-key object) `options` is also
accepted, with `in` read as substring (or key) containment. -/
theorem C5_return_iff_validated (parse : List Char → Option Json)
    (content : List Char) :
    (parse (stripFences content) = none →
      generate_mcq_with_ai parse content = none) ∧
    (∀ j, parse (stripFences content) = some j →
      generate_mcq_with_ai parse content =
        if codeValid j then some j else none) ∧
    (∀ j, optionsIsArray j = true → codeValid j = specValidMCQ j) := by
  refine ⟨?_, ?_, ?_⟩
  · intro h
    unfold generate_mcq_with_ai
    rw [h]
    rfl
  · intro j h
    unfold generate_mcq_with_ai
    rw [h]
    by_cases hv : codeValid j
    · obtain ⟨r, hr⟩ := Option.isSome_iff_exists.mp hv
      rw [if_pos hv, hr, generateCore_some hr]
    · rw [if_neg hv]
      unfold codeValid at hv
      exact Option.not_isSome_iff_eq_none.mp hv
  · intro j harr
    cases j with
    | null => simp [optionsIsArray] at harr
    | bool b => simp [optionsIsArray] at harr
    | num n => simp [optionsIsArray] at harr
    | str s => simp [optionsIsArray] at harr
    | arr l => simp [optionsIsArray] at harr
    | obj fields =>
      cases hq : fields.any (fun kv => kv.1 == "question".data) with
      | false => simp [codeValid, generateCore, pyIn, specValidMCQ, hq]
      | true =>
        cases hfo : fields.find? (fun kv => kv.1 == "options".data) with
        | none =>
          have ho : fields.any (fun kv => kv.1 == "options".data) = false := by
            rw [anyKey_eq_findIsSome, hfo]; rfl
          simp [codeValid, generateCore, pyIn, specValidMCQ, hq, ho, hfo]
        | some kvo =>
          have ho : fields.any (fun kv => kv.1 == "options".data) = true := by
            rw [anyKey_eq_findIsSome, hfo]; rfl
          obtain ⟨ko, vo⟩ := kvo
          have harr' : ∃ its, vo = Json.arr its := by
            cases vo <;> simp [optionsIsArray, pyGetItem, hfo] at harr
            exact ⟨_, rfl⟩
          obtain ⟨items, hitems⟩ := harr'
          subst hitems
          cases hfc : fields.find? (fun kv => kv.1 == "correct_answer".data) with
          | none =>
            have hc : fields.any (fun kv => kv.1 == "correct_answer".data) = false := by
              rw [anyKey_eq_findIsSome, hfc]; rfl
            simp [codeValid, generateCore, pyIn, pyGetItem, specValidMCQ,
              hq, ho, hc, hfo, hfc]
          | some kvc =>
            have hc : fields.any (fun kv => kv.1 == "correct_answer".data) = true := by
              rw [anyKey_eq_findIsSome, hfc]; rfl
            obtain ⟨kc, vc⟩ := kvc
            by_cases h4 : items.length = 4
            · cases hm : items.any (fun y => jeq vc y) with
              | true =>
                simp [codeValid, generateCore, pyIn, pyGetItem, pyLen,
                  specValidMCQ, hq, ho, hc, hfo, hfc, h4, hm]
              | false =>
                simp [codeValid, generateCore, pyIn, pyGetItem, pyLen,
                  specValidMCQ, hq, ho, hc, hfo, hfc, h4, hm]
            · simp [codeValid, generateCore, pyIn, pyGetItem, pyLen,
                specValidMCQ, hq, ho, hc, hfo, hfc, h4]

/-- The JSON text of a well-formed model response. -/
def goodResponseText : List Char :=
  "\x7b\"question\": \"q\", \"options\": [\"A\", \"B\", \"C\", \"D\"], \"correct_answer\": \"A\"\x7d".data

/-- The dictionary `json.loads` produces from `goodResponseText`. -/
def jGood : Json :=
  .obj [("question".data, .str "q".data),
        ("options".data,
          .arr [.str "A".data, .str "B".data, .str "C".data, .str "D".data]),
        ("correct_answer".data, .str "A".data)]

/-- `json.loads` restricted to `goodResponseText`, on which it returns
`jGood`. -/
def parseGood : List Char → Option Json :=
  fun s => if s = goodResponseText then some jGood else none

/-- Witness for C5: a well-formed response is accepted and returned. -/
theorem C5_return_iff_validated_witness :
    generate_mcq_with_ai parseGood goodResponseText = some jGood := by
  have h := (C5_return_iff_validated parseGood goodResponseText).2.1 jGood rfl
  rw [h, if_pos (by decide : codeValid jGood = true)]

/-! ## C7 -/

/-- `distinctJson items`: no two entries of `items` are equal under
Python `==`. -/
def distinctJson : List Json → Bool
  | [] => true
  | x :: xs => !(xs.any (fun y => jeq x y)) && distinctJson xs

/-- `isJsonStr j`: `j` is a JSON string. -/
def isJsonStr : Json → Bool
  | .str _ => true
  | _ => false

/-- Modelled from the spec's data-model words for C7: `options` is an
ordered sequence of exactly 4 pairwise-distinct strings. -/
def fourDistinctStrings (items : List Json) : Bool :=
  items.length == 4 && items.all isJsonStr && distinctJson items

/-- The `options` array of the C7 counterexample: a number and three equal
strings. -/
def dupItems : List Json :=
  [.num 1, .str "A".data, .str "A".data, .str "A".data]

/-- A parsed response whose `options` array has 4 entries that are neither
distinct nor all strings. -/
def jDupOptions : Json :=
  .obj [("question".data, .str "q".data), ("options".data, .arr dupItems),
        ("correct_answer".data, .str "A".data)]

/-- Counterexample to C7: the validation accepts an MCQ whose 4 options
are `[1, "A", "A", "A"]` — not pairwise-distinct strings — because the code
only checks `len(options) == 4` and `correct_answer in options`. -/
theorem C7_counterexample :
    codeValid jDupOptions = true ∧
    pyGetItem jDupOptions ("options".data) = some (.arr dupItems) ∧
    fourDistinctStrings dupItems = false := by
  refine ⟨by decide, rfl, by decide⟩

/-- C7 (amended): every parsed object accepted by the implemented
validation whose `options` entry is a JSON array has exactly 4 options
(arbitrary JSON values, not necessarily distinct strings) with
`correct_answer` equal (under Python `==`) to one of them. -/
theorem C7_accepted_options_shape (fields : List (List Char × Json))
    (items : List Json) (ca : Json)
    (ho : pyGetItem (.obj fields) ("options".data) = some (.arr items))
    (hc : pyGetItem (.obj fields) ("correct_answer".data) = some ca)
    (hv : codeValid (.obj fields) = true) :
    items.length = 4 ∧ items.any (fun y => jeq ca y) = true := by
  obtain ⟨r, hr⟩ := Option.isSome_iff_exists.mp hv
  unfold generateCore at hr
  cases hA : pyIn (Json.str "question".data) (Json.obj fields) with
  | none => simp [hA] at hr
  | some bA =>
    cases bA with
    | false => simp [hA] at hr
    | true =>
      cases hB : pyIn (Json.str "options".data) (Json.obj fields) with
      | none => simp [hA, hB] at hr
      | some bB =>
        cases bB with
        | false => simp [hA, hB] at hr
        | true =>
          cases hC : pyIn (Json.str "correct_answer".data) (Json.obj fields) with
          | none => simp [hA, hB, hC] at hr
          | some bC =>
            cases bC with
            | false => simp [hA, hB, hC] at hr
            | true =>
              simp only [hA, hB, hC] at hr
              simp only [ho] at hr
              have hlen : pyLen (Json.arr items) = some items.length := rfl
              simp only [hlen] at hr
              by_cases h4 : items.length = 4
              · rw [if_pos h4] at hr
                simp only [hc] at hr
                have hin : pyIn ca (Json.arr items) =
                    some (items.any (fun y => jeq ca y)) := rfl
                simp only [hin] at hr
                cases hm : items.any (fun y => jeq ca y) with
                | false => simp only [hm] at hr; exact Option.noConfusion hr
                | true => exact ⟨h4, rfl⟩
              · rw [if_neg h4] at hr; exact Option.noConfusion hr

/-- Witness for C7: the well-formed `jGood` response has 4 options with
the correct answer among them. -/
theorem C7_accepted_options_shape_witness :
    ([Json.str "A".data, Json.str "B".data, Json.str "C".data,
       Json.str "D".data] : List Json).length = 4 ∧
    ([Json.str "A".data, Json.str "B".data, Json.str "C".data,
       Json.str "D".data] : List Json).any
        (fun y => jeq (Json.str "A".data) y) = true :=
  C7_accepted_options_shape
    [("question".data, .str "q".data),
     ("options".data,
       .arr [.str "A".data, .str "B".data, .str "C".data, .str "D".data]),
     ("correct_answer".data, .str "A".data)]
    [.str "A".data, .str "B".data, .str "C".data, .str "D".data]
    (.str "A".data) rfl rfl (by decide)

/-! ## C6 -/

/-- A sentence that occurs twice in a document (the sentence filter does
not deduplicate, so the learning-point list can contain repeats). -/
def dupSentence : List Char :=
  "This exact sentence occurs twice in the uploaded study document.".data

/-- Counterexample to C6: when the learning-point list contains the same
sentence twice, `random.sample` can select both occurrences (it samples
distinct *positions*, not distinct values), so one batch drives MCQ
generation on two equal learning points. -/
theorem C6_counterexample :
    IsSample [dupSentence, dupSentence] 2 [dupSentence, dupSentence] ∧
    ¬ List.Nodup [dupSentence, dupSentence] := by
  constructor
  · exact ⟨[0, 1], by decide, by decide, by decide, rfl⟩
  · decide

/-- C6 (amended): `generate_quiz_batch` draws its learning points at
pairwise-distinct *positions*, so whenever the learning points themselves
are pairwise distinct the batch has no duplicates; and the batch never
holds more MCQs than the requested count nor more than the number of
available learning points. -/
theorem C6_batch_distinct_and_bounded (sentences : List (List Char)) (k : Nat)
    (selected : List (List Char)) (gen : List Char → Option Json)
    (h : IsSample sentences k selected) :
    (sentences.Nodup → selected.Nodup) ∧
    (generate_quiz_batch gen selected).length ≤ k ∧
    (generate_quiz_batch gen selected).length ≤ sentences.length := by
  obtain ⟨idxs, hnd, hlt, hlen, hsel⟩ := h
  have hsellen : selected.length = min k sentences.length := by
    rw [hsel, List.length_map, hlen]
  refine ⟨?_, ?_, ?_⟩
  · intro hsnd
    rw [hsel]
    refine List.Nodup.map_on ?_ hnd
    intro i hi j hj heq
    have hi' : i < sentences.length := hlt i hi
    have hj' : j < sentences.length := hlt j hj
    rw [sentences.getD_eq_getElem [] hi', sentences.getD_eq_getElem [] hj'] at heq
    exact (List.Nodup.getElem_inj_iff hsnd).mp heq
  · calc (generate_quiz_batch gen selected).length
        ≤ selected.length := List.length_filterMap_le _ _
      _ ≤ k := by rw [hsellen]; exact Nat.min_le_left _ _
  · calc (generate_quiz_batch gen selected).length
        ≤ selected.length := List.length_filterMap_le _ _
      _ ≤ sentences.length := by rw [hsellen]; exact Nat.min_le_right _ _

/-- Two distinct demo sentences. -/
def demoSentA : List Char := "The mitochondria is the powerhouse of the cell.".data

/-- Second demo sentence, distinct from the first. -/
def demoSentB : List Char := "Photosynthesis converts light energy into chemical energy.".data

/-- Witness for C6: a 1-element sample from two distinct sentences yields a
batch of at most one MCQ. -/
theorem C6_batch_distinct_and_bounded_witness :
    (generate_quiz_batch (fun s => some (.str s)) [demoSentA]).length ≤ 1 :=
  (C6_batch_distinct_and_bounded [demoSentA, demoSentB] 1 [demoSentA]
    (fun s => some (.str s)) ⟨[0], by decide, by decide, by decide, rfl⟩).2.1

/-! ## C9 -/

/-- C9: the sample size used by `generate_quiz_batch` is
`min(num_questions, len(sentences))`, which never exceeds the number of
sentences, so `random.sample` is always well-defined; and an empty
sentence list yields an empty batch rather than an error. -/
theorem C9_sample_size_safe (sentences : List (List Char)) (k : Nat)
    (selected : List (List Char)) (gen : List Char → Option Json)
    (h : IsSample sentences k selected) :
    selected.length = min k sentences.length ∧
    min k sentences.length ≤ sentences.length ∧
    (sentences = [] → generate_quiz_batch gen selected = []) := by
  obtain ⟨idxs, hnd, hlt, hlen, hsel⟩ := h
  refine ⟨?_, Nat.min_le_right _ _, ?_⟩
  · rw [hsel, List.length_map, hlen]
  · intro hemp
    subst hemp
    have h0 : idxs.length = 0 := by simpa using hlen
    have hnil : idxs = [] := List.length_eq_zero.mp h0
    subst hnil
    rw [hsel]
    rfl

/-- Witness for C9: with no sentences at all, the batch is empty. -/
theorem C9_sample_size_safe_witness :
    generate_quiz_batch (fun s => some (.str s)) [] = [] :=
  (C9_sample_size_safe [] 3 [] (fun s => some (.str s))
    ⟨[], by decide, by decide, by decide, rfl⟩).2.2 rfl

end FlashQuiz
